import Mathlib

/-!
Verification of the layered-configuration loader of `iotedged`
(`src/edgelet/iotedged/src/settings.rs`), shallowly embedded in Lean 4.

The loader reads an optional override file, or an embedded default JSON
document, and decodes the result into a `Settings<T>` value whose
`provisioning` field is an internally tagged union.  External collaborators
(the `config` crate, `serde_json`, the `url` crate, and the types
`ModuleSpec<T>` / `DockerConfig` / `Error` whose sources are not part of
this unit) are modelled explicitly below, each marked in its doc comment.
-/

set_option maxRecDepth 40000

namespace IotedgedSettings

/-- The JSON document model: the hierarchical, human-editable document
format used both by the embedded default document and override files
(object/array/string/number/bool primitives). -/
inductive Json where
  | obj (props : List (String × Json)) : Json
  | arr (items : List Json) : Json
  | str (value : String) : Json
  | num (value : Int) : Json
  | bool (value : Bool) : Json
  | null : Json
  deriving Repr

mutual

/-- Structural equality test on documents (no deriving handler exists for
the nested recursion through lists). -/
def Json.eqb : Json → Json → Bool
  | .obj pa, .obj pb => Json.eqbProps pa pb
  | .arr ia, .arr ib => Json.eqbItems ia ib
  | .str va, .str vb => va == vb
  | .num va, .num vb => va == vb
  | .bool va, .bool vb => va == vb
  | .null, .null => true
  | _, _ => false

/-- Structural equality test on array items. -/
def Json.eqbItems : List Json → List Json → Bool
  | u :: us, w :: ws => Json.eqb u w && Json.eqbItems us ws
  | [], [] => true
  | _, _ => false

/-- Structural equality test on object properties. -/
def Json.eqbProps : List (String × Json) → List (String × Json) → Bool
  | (ka, va) :: pa, (kb, vb) :: pb =>
      ka == kb && (Json.eqb va vb && Json.eqbProps pa pb)
  | [], [] => true
  | _, _ => false

end

mutual

theorem Json.eqb_self : ∀ (a : Json), Json.eqb a a = true
  | .obj pa => by simp only [Json.eqb]; exact Json.eqbProps_self pa
  | .arr ia => by simp only [Json.eqb]; exact Json.eqbItems_self ia
  | .str va => by simp only [Json.eqb]; exact beq_self_eq_true va
  | .num va => by simp only [Json.eqb]; exact beq_self_eq_true va
  | .bool va => by simp only [Json.eqb]; exact beq_self_eq_true va
  | .null => rfl

theorem Json.eqbItems_self : ∀ (l : List Json), Json.eqbItems l l = true
  | [] => rfl
  | u :: us => by
      simp only [Json.eqbItems, Json.eqb_self u, Json.eqbItems_self us]
      rfl

theorem Json.eqbProps_self : ∀ (l : List (String × Json)), Json.eqbProps l l = true
  | [] => rfl
  | (ka, va) :: pa => by
      simp only [Json.eqbProps, Json.eqb_self va, Json.eqbProps_self pa,
        beq_self_eq_true ka]
      rfl

end

mutual

theorem Json.eq_of_eqb : ∀ {a b : Json}, Json.eqb a b = true → a = b
  | .obj pa, .obj pb, h => by
      simp only [Json.eqb] at h
      exact congrArg Json.obj (Json.eq_of_eqbProps h)
  | .arr ia, .arr ib, h => by
      simp only [Json.eqb] at h
      exact congrArg Json.arr (Json.eq_of_eqbItems h)
  | .str va, .str vb, h => by
      simp only [Json.eqb] at h
      exact congrArg Json.str (eq_of_beq h)
  | .num va, .num vb, h => by
      simp only [Json.eqb] at h
      exact congrArg Json.num (eq_of_beq h)
  | .bool va, .bool vb, h => by
      simp only [Json.eqb] at h
      exact congrArg Json.bool (eq_of_beq h)
  | .null, .null, _ => rfl
  | .obj _, .arr _, h => by simp [Json.eqb] at h
  | .obj _, .str _, h => by simp [Json.eqb] at h
  | .obj _, .num _, h => by simp [Json.eqb] at h
  | .obj _, .bool _, h => by simp [Json.eqb] at h
  | .obj _, .null, h => by simp [Json.eqb] at h
  | .arr _, .obj _, h => by simp [Json.eqb] at h
  | .arr _, .str _, h => by simp [Json.eqb] at h
  | .arr _, .num _, h => by simp [Json.eqb] at h
  | .arr _, .bool _, h => by simp [Json.eqb] at h
  | .arr _, .null, h => by simp [Json.eqb] at h
  | .str _, .obj _, h => by simp [Json.eqb] at h
  | .str _, .arr _, h => by simp [Json.eqb] at h
  | .str _, .num _, h => by simp [Json.eqb] at h
  | .str _, .bool _, h => by simp [Json.eqb] at h
  | .str _, .null, h => by simp [Json.eqb] at h
  | .num _, .obj _, h => by simp [Json.eqb] at h
  | .num _, .arr _, h => by simp [Json.eqb] at h
  | .num _, .str _, h => by simp [Json.eqb] at h
  | .num _, .bool _, h => by simp [Json.eqb] at h
  | .num _, .null, h => by simp [Json.eqb] at h
  | .bool _, .obj _, h => by simp [Json.eqb] at h
  | .bool _, .arr _, h => by simp [Json.eqb] at h
  | .bool _, .str _, h => by simp [Json.eqb] at h
  | .bool _, .num _, h => by simp [Json.eqb] at h
  | .bool _, .null, h => by simp [Json.eqb] at h
  | .null, .obj _, h => by simp [Json.eqb] at h
  | .null, .arr _, h => by simp [Json.eqb] at h
  | .null, .str _, h => by simp [Json.eqb] at h
  | .null, .num _, h => by simp [Json.eqb] at h
  | .null, .bool _, h => by simp [Json.eqb] at h

theorem Json.eq_of_eqbItems : ∀ {l m : List Json}, Json.eqbItems l m = true → l = m
  | [], [], _ => rfl
  | u :: us, w :: ws, h => by
      simp only [Json.eqbItems, Bool.and_eq_true] at h
      rw [Json.eq_of_eqb h.1, Json.eq_of_eqbItems h.2]
  | [], _ :: _, h => by simp [Json.eqbItems] at h
  | _ :: _, [], h => by simp [Json.eqbItems] at h

theorem Json.eq_of_eqbProps :
    ∀ {l m : List (String × Json)}, Json.eqbProps l m = true → l = m
  | [], [], _ => rfl
  | (ka, va) :: pa, (kb, vb) :: pb, h => by
      simp only [Json.eqbProps, Bool.and_eq_true] at h
      obtain ⟨hk, hv, hp⟩ := h
      rw [eq_of_beq hk, Json.eq_of_eqb hv, Json.eq_of_eqbProps hp]
  | [], _ :: _, h => by simp [Json.eqbProps] at h
  | _ :: _, [], h => by simp [Json.eqbProps] at h

end

instance : DecidableEq Json := fun a b =>
  if hd : Json.eqb a b = true then
    .isTrue (Json.eq_of_eqb hd)
  else
    .isFalse (fun he => hd (he ▸ Json.eqb_self a))

deriving instance DecidableEq for Except

/-- Whitespace recognised by the document parser. -/
def isWs (c : Char) : Bool :=
  match c with
  | ' ' | '\n' | '\t' | '\r' => true
  | _ => false

/-- Drop leading whitespace. -/
def skipWs (input : List Char) : List Char :=
  match input with
  | c :: rest => if isWs c then skipWs rest else input
  | [] => []

/-- Translation of a JSON string escape character. -/
def escChar (e : Char) : Option Char :=
  match e with
  | 'n' => some '\n'
  | 't' => some '\t'
  | 'r' => some '\r'
  | '"' => some '"'
  | '\\' => some '\\'
  | '/' => some '/'
  | _ => none

/-- Parse the body of a JSON string literal (the opening quote already
consumed), returning the decoded characters and the remaining input. -/
def parseStringBody : List Char → Option (List Char × List Char)
  | [] => none
  | '"' :: cs => some ([], cs)
  | '\\' :: rest =>
      match rest with
      | [] => none
      | e :: cs =>
          match escChar e with
          | none => none
          | some ec =>
              match parseStringBody cs with
              | none => none
              | some (s, r) => some (ec :: s, r)
  | c :: cs =>
      match parseStringBody cs with
      | none => none
      | some (s, r) => some (c :: s, r)

/-- Split off a maximal run of decimal digits. -/
def takeDigits (input : List Char) : List Char × List Char :=
  match input with
  | c :: rest =>
      if c.isDigit then
        let tail := takeDigits rest
        (c :: tail.1, tail.2)
      else ([], input)
  | [] => ([], [])

/-- Numeric value of a digit run. -/
def digitsToNat (ds : List Char) : Nat :=
  ds.foldl (fun n c => 10 * n + (c.toNat - 48)) 0

mutual

/-- Fuel-indexed recursive-descent parser for a JSON value.  Models the
document parser collaborator (`serde_json` / the `config` crate's JSON
backend) on the fragment of JSON the configuration documents use. -/
def parseValue : Nat → List Char → Option (Json × List Char)
  | 0, _ => none
  | fuel + 1, cs =>
      match skipWs cs with
      | '"' :: rest =>
          match parseStringBody rest with
          | none => none
          | some (s, r) => some (.str (String.mk s), r)
      | '{' :: rest =>
          match skipWs rest with
          | '}' :: r => some (.obj [], r)
          | _ =>
              match parseMembers fuel rest with
              | none => none
              | some (fs, r) => some (.obj fs, r)
      | '[' :: rest =>
          match skipWs rest with
          | ']' :: r => some (.arr [], r)
          | _ =>
              match parseElements fuel rest with
              | none => none
              | some (xs, r) => some (.arr xs, r)
      | 'n' :: 'u' :: 'l' :: 'l' :: rest => some (.null, rest)
      | 't' :: 'r' :: 'u' :: 'e' :: rest => some (.bool true, rest)
      | 'f' :: 'a' :: 'l' :: 's' :: 'e' :: rest => some (.bool false, rest)
      | '-' :: rest =>
          match takeDigits rest with
          | ([], _) => none
          | (ds, r) => some (.num (-(digitsToNat ds : Int)), r)
      | c :: rest =>
          if c.isDigit then
            match takeDigits (c :: rest) with
            | ([], _) => none
            | (ds, r) => some (.num (digitsToNat ds : Int), r)
          else none
      | [] => none

/-- Parse the members of a JSON object (at least one `"key": value` pair),
up to and including the closing brace. -/
def parseMembers : Nat → List Char → Option (List (String × Json) × List Char)
  | 0, _ => none
  | fuel + 1, cs =>
      match skipWs cs with
      | '"' :: rest =>
          match parseStringBody rest with
          | none => none
          | some (key, r1) =>
              match skipWs r1 with
              | ':' :: r2 =>
                  match parseValue fuel r2 with
                  | none => none
                  | some (v, r3) =>
                      match skipWs r3 with
                      | ',' :: r4 =>
                          match parseMembers fuel r4 with
                          | none => none
                          | some (fs, r5) => some ((String.mk key, v) :: fs, r5)
                      | '}' :: r4 => some ([(String.mk key, v)], r4)
                      | _ => none
              | _ => none
      | _ => none

/-- Parse the elements of a JSON array (at least one value), up to and
including the closing bracket. -/
def parseElements : Nat → List Char → Option (List Json × List Char)
  | 0, _ => none
  | fuel + 1, cs =>
      match parseValue fuel cs with
      | none => none
      | some (v, r1) =>
          match skipWs r1 with
          | ',' :: r2 =>
              match parseElements fuel r2 with
              | none => none
              | some (xs, r3) => some (v :: xs, r3)
          | ']' :: r2 => some ([v], r2)
          | _ => none

end

/-- Parse a complete JSON document: one value followed only by whitespace. -/
def parseJson (s : String) : Option Json :=
  match parseValue (s.length + 2) s.toList with
  | some (j, rest) => if (skipWs rest).isEmpty then some j else none
  | none => none

/-- Modelled from the spec: a parsed absolute URI, the output of the URI
parser collaborator (the `url` crate, external to this unit): a scheme and
the remainder of the URI text. -/
structure Url where
  scheme : String
  rest : String
  deriving Repr, DecidableEq

/-- Characters permitted in a URI scheme. -/
def isSchemeChar (c : Char) : Bool :=
  c.isAlpha || c.isDigit || c = '+' || c = '-' || c = '.'

/-- Split the input at the first colon: the candidate scheme and the rest. -/
def splitScheme : List Char → Option (List Char × List Char)
  | [] => none
  | c :: cs =>
      if c = ':' then some ([], cs)
      else
        match splitScheme cs with
        | none => none
        | some (pre, post) => some (c :: pre, post)

/-- Modelled from the spec: `Url::parse` of the `url` crate collaborator,
"a URI parser that rejects malformed URIs"; each URI "must parse as an
absolute URI", i.e. carry an explicit scheme. -/
def Url.parse (s : String) : Option Url :=
  match splitScheme s.toList with
  | none => none
  | some ([], _) => none
  | some (c :: pre, post) =>
      if c.isAlpha && (c :: pre).all isSchemeChar then
        some ⟨String.mk (c :: pre), String.mk post⟩
      else none

/-- Serialization of a parsed URI back to text. -/
def Url.render (u : Url) : String :=
  u.scheme ++ ":" ++ u.rest

/-- Modelled from the spec: the error type of `error.rs` (not part of this
unit): "Single error kind surfaced to callers: `Configuration`, carrying a
human-readable cause chain." -/
inductive Error where
  | Configuration (msg : String)
  deriving Repr, DecidableEq

/-- Outcome of the loader: a returned `Ok` value, a returned `Err`, or a
process abort (a Rust panic, as raised by `.expect`). -/
inductive LoadResult (α : Type) where
  | ok (value : α)
  | err (e : Error)
  | panic (msg : String)
  deriving Repr, DecidableEq

/-- Whether a load outcome is a returned `Ok` value. -/
def LoadResult.isOk : LoadResult α → Bool
  | .ok _ => true
  | _ => false

/-- `Provisioning` from settings.rs: an internally tagged union
(`#[serde(tag = "source")]`, `#[serde(rename_all = "lowercase")]`). -/
inductive Provisioning where
  | Manual (device_connection_string : String)
  | Dps (global_endpoint : String) (scope_id : String)
  deriving Repr, DecidableEq

/-- Modelled from the spec: `ModuleSpec<T>` of `edgelet_core` (not part of
this unit): "identifies a named workload, its engine type tag, environment
variables (mapping of name→value), and an engine-specific config payload of
type T". -/
structure ModuleSpec (τ : Type) where
  name : String
  type : String
  env : List (String × String)
  config : τ
  deriving Repr, DecidableEq

/-- Modelled from the spec: `DockerConfig` of `edgelet_docker` (not part of
this unit), the engine-specific config type the unit tests instantiate `T`
with; the embedded default document gives its shape: an `image` string, a
`create_options` string, and an `auth` object. -/
structure DockerConfig where
  image : String
  create_options : String
  auth : List (String × Json)
  deriving Repr, DecidableEq

/-- `Settings<T>` from settings.rs. -/
structure Settings (τ : Type) where
  provisioning : Provisioning
  runtime : ModuleSpec τ
  hostname : String
  workload_uri : Url
  management_uri : Url
  docker_uri : Url
  deriving Repr, DecidableEq

/-- Look up a required field of a JSON object (serde struct decoding). -/
def getField (j : Json) (key : String) : Except String Json :=
  match j with
  | .obj fields =>
      match fields.lookup key with
      | some v => .ok v
      | none => .error ("missing field `" ++ key ++ "`")
  | _ => .error "invalid type: expected a map"

/-- Decode a JSON value as a string. -/
def asString (j : Json) : Except String String :=
  match j with
  | .str s => .ok s
  | _ => .error "invalid type: expected a string"

/-- Decode a JSON value as an object's field list. -/
def asObj (j : Json) : Except String (List (String × Json)) :=
  match j with
  | .obj fields => .ok fields
  | _ => .error "invalid type: expected a map"

/-- Look up a required string field of a JSON object. -/
def getString (j : Json) (key : String) : Except String String :=
  getField j key >>= asString

/-- Decoder for a `Url` field as `#[serde(with = "url_serde")]` produces:
the document value must be a string that parses as an absolute URI. -/
def decodeUrl (j : Json) : Except String Url :=
  match j with
  | .str s =>
      match Url.parse s with
      | some u => .ok u
      | none => .error ("invalid url: " ++ s)
  | _ => .error "invalid type: expected a string"

/-- Decoder for `Provisioning` as serde derives it for an internally tagged
union: read the `source` discriminant, then require the fields of the
matching (lowercased) variant; any other discriminant is a decode error. -/
def decodeProvisioning (j : Json) : Except String Provisioning := do
  let src ← getString j "source"
  if src = "manual" then
    let cs ← getString j "device_connection_string"
    return .Manual cs
  else if src = "dps" then
    let ge ← getString j "global_endpoint"
    let si ← getString j "scope_id"
    return .Dps ge si
  else
    .error ("unknown variant `" ++ src ++ "`, expected `manual` or `dps`")

/-- Decode the fields of an env object: every value must be a string. -/
def decodeEnvFields : List (String × Json) → Except String (List (String × String))
  | [] => .ok []
  | (k, v) :: fields => do
      let s ← asString v
      let tail ← decodeEnvFields fields
      return (k, s) :: tail

/-- Decode an env map (object of string values). -/
def decodeEnv (j : Json) : Except String (List (String × String)) :=
  asObj j >>= decodeEnvFields

/-- Modelled from the spec: the decoder of `ModuleSpec<T>` (`edgelet_core`,
not part of this unit): the named workload spec with required fields
`name`, `type`, `env` and the engine-specific `config` payload, the latter
decoded by the pluggable decoder for `T`. -/
def decodeModuleSpec (decodeT : Json → Except String τ) (j : Json) :
    Except String (ModuleSpec τ) := do
  let name ← getString j "name"
  let ty ← getString j "type"
  let env ← getField j "env" >>= decodeEnv
  let cfg ← getField j "config" >>= decodeT
  return ⟨name, ty, env, cfg⟩

/-- Modelled from the spec: the decoder of `DockerConfig` (`edgelet_docker`,
not part of this unit), per the shape the default document gives it. -/
def decodeDockerConfig (j : Json) : Except String DockerConfig := do
  let image ← getString j "image"
  let co ← getString j "create_options"
  let auth ← getField j "auth" >>= asObj
  return ⟨image, co, auth⟩

/-- Decoder for `Settings<T>` as `#[derive(Deserialize)]` produces: every
field is required; the three URI fields go through `url_serde`. -/
def decodeSettings (decodeT : Json → Except String τ) (j : Json) :
    Except String (Settings τ) := do
  let prov ← getField j "provisioning" >>= decodeProvisioning
  let runtime ← getField j "runtime" >>= decodeModuleSpec decodeT
  let hostname ← getString j "hostname"
  let w ← getField j "workload_uri" >>= decodeUrl
  let m ← getField j "management_uri" >>= decodeUrl
  let d ← getField j "docker_uri" >>= decodeUrl
  return ⟨prov, runtime, hostname, w, m, d⟩

/-- The embedded default configuration document of settings.rs for
`#[cfg(unix)]` targets, transcribed byte for byte. -/
def DEFAULTS : String :=
  "\x7b\n    \"provisioning\": \x7b\n      \"source\": \"manual\",\n      \"device_connection_string\": \"HostName=something.some.com;DeviceId=some;SharedAccessKey=some\"\n    \x7d,\n    \"runtime\": \x7b\n      \"name\": \"edgeAgent\",\n      \"type\": \"docker\",\n      \"env\": \x7b\x7d,\n      \"config\": \x7b\n        \"image\": \"microsoft/azureiotedge-agent:1.0-preview\",\n        \"create_options\": \"\",\n        \"auth\": \x7b\x7d\n      \x7d\n    \x7d,\n    \"hostname\": \"localhost\",\n    \"workload_uri\": \"http://0.0.0.0:8081\",\n    \"management_uri\": \"http://0.0.0.0:8080\",\n    \"docker_uri\": \"unix:///var/run/docker.sock\"\n\x7d"

/-- The embedded default configuration document of settings.rs for
`#[cfg(windows)]` targets, transcribed byte for byte. -/
def DEFAULTS_windows : String :=
  "\x7b\n    \"provisioning\": \x7b\n      \"source\": \"manual\",\n      \"device_connection_string\": \"HostName=something.some.com;DeviceId=some;SharedAccessKey=some\"\n    \x7d,\n    \"runtime\": \x7b\n      \"name\": \"edgeAgent\",\n      \"type\": \"docker\",\n      \"env\": \x7b\x7d,\n      \"config\": \x7b\n        \"image\": \"microsoft/azureiotedge-agent:1.0-preview\",\n        \"create_options\": \"\",\n        \"auth\": \x7b\x7d\n      \x7d\n    \x7d,\n    \"hostname\": \"localhost\",\n    \"workload_uri\": \"http://0.0.0.0:8081\",\n    \"management_uri\": \"http://0.0.0.0:8080\",\n    \"docker_uri\": \"http://localhost:2375\"\n\x7d"

/-- `Settings::new` from settings.rs, shallowly embedded.  The `config`
crate collaboration (`Config::default()`, `merge(File::with_name(val))`,
`try_into`) is modelled as: read the named file from the file system `fs`,
parse it as a document, decode it with the schema decoder.  The file is
merged over an *empty* `Config::default()`, so `defaults` plays no part
when a filename is given.  The `None` branch is
`serde_json::from_str::<Settings<T>>(DEFAULTS).expect("Invalid default
configuration")`: parse and decode the embedded defaults, aborting the
process if that fails. -/
def Settings.new (decodeT : Json → Except String τ) (defaults : String)
    (fs : String → Option String) (filename : Option String) :
    LoadResult (Settings τ) :=
  match filename with
  | some val =>
      match fs val with
      | none =>
          .err (.Configuration ("configuration file \"" ++ val ++ "\" not found"))
      | some contents =>
          match parseJson contents with
          | none =>
              .err (.Configuration ("could not parse configuration file \"" ++ val ++ "\""))
          | some doc =>
              match decodeSettings decodeT doc with
              | .ok s => .ok s
              | .error e => .err (.Configuration e)
  | none =>
      match parseJson defaults with
      | none => .panic "Invalid default configuration"
      | some doc =>
          match decodeSettings decodeT doc with
          | .ok s => .ok s
          | .error _ => .panic "Invalid default configuration"

/-- The `Settings<DockerConfig>` value the embedded unix default document
denotes, written out field by field. -/
def defaultSettings : Settings DockerConfig where
  provisioning := .Manual "HostName=something.some.com;DeviceId=some;SharedAccessKey=some"
  runtime :=
    { name := "edgeAgent"
      type := "docker"
      env := []
      config := { image := "microsoft/azureiotedge-agent:1.0-preview"
                  create_options := ""
                  auth := [] } }
  hostname := "localhost"
  workload_uri := ⟨"http", "//0.0.0.0:8081"⟩
  management_uri := ⟨"http", "//0.0.0.0:8080"⟩
  docker_uri := ⟨"unix", "///var/run/docker.sock"⟩

/-- The `Settings<DockerConfig>` value the embedded windows default
document denotes: identical to the unix one except for the docker URI. -/
def defaultSettingsWindows : Settings DockerConfig where
  provisioning := .Manual "HostName=something.some.com;DeviceId=some;SharedAccessKey=some"
  runtime :=
    { name := "edgeAgent"
      type := "docker"
      env := []
      config := { image := "microsoft/azureiotedge-agent:1.0-preview"
                  create_options := ""
                  auth := [] } }
  hostname := "localhost"
  workload_uri := ⟨"http", "//0.0.0.0:8081"⟩
  management_uri := ⟨"http", "//0.0.0.0:8080"⟩
  docker_uri := ⟨"http", "//localhost:2375"⟩

/-- The JSON document the unix default text parses to. -/
def defaultsJson : Json :=
  .obj
    [("provisioning",
      .obj [("source", .str "manual"),
            ("device_connection_string",
             .str "HostName=something.some.com;DeviceId=some;SharedAccessKey=some")]),
     ("runtime",
      .obj [("name", .str "edgeAgent"),
            ("type", .str "docker"),
            ("env", .obj []),
            ("config",
             .obj [("image", .str "microsoft/azureiotedge-agent:1.0-preview"),
                   ("create_options", .str ""),
                   ("auth", .obj [])])]),
     ("hostname", .str "localhost"),
     ("workload_uri", .str "http://0.0.0.0:8081"),
     ("management_uri", .str "http://0.0.0.0:8080"),
     ("docker_uri", .str "unix:///var/run/docker.sock")]

/-- An override file that sets only the leaf
`provisioning.device_connection_string`. -/
def overrideOnlyConnStringText : String :=
  "\x7b \"provisioning\": \x7b \"source\": \"manual\", \"device_connection_string\": \"HostName=custom.example.com;DeviceId=custom;SharedAccessKey=custom\" \x7d \x7d"

/-- A file system holding only the connection-string-only override file. -/
def fsOverrideOnly : String → Option String := fun p =>
  if p = "config.json" then some overrideOnlyConnStringText else none

/-- A well-formed override file equal to the defaults except that the
required field `hostname` is absent. -/
def missingHostnameText : String :=
  "\x7b \"provisioning\": \x7b \"source\": \"manual\", \"device_connection_string\": \"HostName=c.example.com;DeviceId=c;SharedAccessKey=c\" \x7d, \"runtime\": \x7b \"name\": \"edgeAgent\", \"type\": \"docker\", \"env\": \x7b\x7d, \"config\": \x7b \"image\": \"microsoft/azureiotedge-agent:1.0-preview\", \"create_options\": \"\", \"auth\": \x7b\x7d \x7d \x7d, \"workload_uri\": \"http://0.0.0.0:8081\", \"management_uri\": \"http://0.0.0.0:8080\", \"docker_uri\": \"unix:///var/run/docker.sock\" \x7d"

/-- A file system holding only the hostname-less override file. -/
def fsMissingHostname : String → Option String := fun p =>
  if p = "config.json" then some missingHostnameText else none

/-- A syntactically invalid override file (unterminated object). -/
def notJsonText : String :=
  "\x7b \"hostname\": "

/-- A provisioning document whose `source` is `dps` with both required
sub-fields. -/
def dpsDoc : Json :=
  .obj [("source", .str "dps"),
        ("global_endpoint", .str "https://global.azure-devices-provisioning.net"),
        ("scope_id", .str "0ne0000A0A0")]

/-- A full, well-formed settings file whose `provisioning.source` is the
unrecognized string `external`. -/
def badSourceText : String :=
  "\x7b \"provisioning\": \x7b \"source\": \"external\", \"device_connection_string\": \"HostName=c.example.com;DeviceId=c;SharedAccessKey=c\" \x7d, \"runtime\": \x7b \"name\": \"edgeAgent\", \"type\": \"docker\", \"env\": \x7b\x7d, \"config\": \x7b \"image\": \"microsoft/azureiotedge-agent:1.0-preview\", \"create_options\": \"\", \"auth\": \x7b\x7d \x7d \x7d, \"hostname\": \"localhost\", \"workload_uri\": \"http://0.0.0.0:8081\", \"management_uri\": \"http://0.0.0.0:8080\", \"docker_uri\": \"unix:///var/run/docker.sock\" \x7d"

/-- The combined parse-and-decode of a defaults text, as
`serde_json::from_str::<Settings<DockerConfig>>` performs it. -/
def decodeDefaults (d : String) : Option (Settings DockerConfig) :=
  match parseJson d with
  | none => none
  | some doc => (decodeSettings decodeDockerConfig doc).toOption

/-- Modelled from the spec: encoding a parsed URI back to the document
format (its serialized text, as `url_serde` writes it). -/
def encodeUrl (u : Url) : Json :=
  .str u.render

/-- Modelled from the spec: encoding the provisioning tagged union back to
the document format, with its `source` discriminant and the fields of the
populated variant. -/
def encodeProvisioning : Provisioning → Json
  | .Manual cs =>
      .obj [("source", .str "manual"), ("device_connection_string", .str cs)]
  | .Dps ge si =>
      .obj [("source", .str "dps"), ("global_endpoint", .str ge), ("scope_id", .str si)]

/-- Modelled from the spec: encoding an env map back to the document
format. -/
def encodeEnv (env : List (String × String)) : Json :=
  .obj (env.map fun kv => (kv.1, .str kv.2))

/-- Modelled from the spec: encoding a workload spec back to the document
format, with the engine-specific payload encoded by the pluggable
encoder. -/
def encodeModuleSpec (encodeT : τ → Json) (m : ModuleSpec τ) : Json :=
  .obj [("name", .str m.name), ("type", .str m.type),
        ("env", encodeEnv m.env), ("config", encodeT m.config)]

/-- Modelled from the spec: encoding the docker engine config back to the
document format. -/
def encodeDockerConfig (c : DockerConfig) : Json :=
  .obj [("image", .str c.image), ("create_options", .str c.create_options),
        ("auth", .obj c.auth)]

/-- Modelled from the spec: encoding a `Settings<T>` value "back to the
document format" (round-trip property of §8), field for field in the
schema's shape. -/
def encodeSettings (encodeT : τ → Json) (s : Settings τ) : Json :=
  .obj [("provisioning", encodeProvisioning s.provisioning),
        ("runtime", encodeModuleSpec encodeT s.runtime),
        ("hostname", .str s.hostname),
        ("workload_uri", encodeUrl s.workload_uri),
        ("management_uri", encodeUrl s.management_uri),
        ("docker_uri", encodeUrl s.docker_uri)]

/-- Inversion of a successful step of an `Except` chain: the first action
must have produced a value the continuation accepted. -/
theorem except_ok_step {ε α β : Type} {act : Except ε α} {next : α → Except ε β}
    {out : β} (hrun : act >>= next = .ok out) :
    ∃ mid, act = .ok mid ∧ next mid = .ok out := by
  cases hact : act with
  | ok mid =>
      rw [hact] at hrun
      exact ⟨mid, rfl, hrun⟩
  | error e =>
      rw [hact] at hrun
      simp only [Bind.bind, Except.bind] at hrun
      exact Except.noConfusion hrun

/-- In the `None` branch of `Settings::new` the file system is never
consulted: the result is definitionally independent of it. -/
theorem new_none_fs_irrelevant (τ : Type) (decodeT : Json → Except String τ)
    (d : String) (fs fs' : String → Option String) :
    Settings.new decodeT d fs none = Settings.new decodeT d fs' none := rfl

/-- In the `Some` branch of `Settings::new` the embedded defaults text is
never consulted: the result is definitionally independent of it. -/
theorem new_some_defaults_irrelevant (τ : Type) (decodeT : Json → Except String τ)
    (d d' : String) (fs : String → Option String) (p : String) :
    Settings.new decodeT d fs (some p) = Settings.new decodeT d' fs (some p) := rfl

/-- Claim C2: `Settings::new(None)` returns `Ok` with the embedded default
document decoded unmodified: `provisioning` is the `Manual` variant with the
placeholder connection string, `runtime` names the `edgeAgent` workload, and
the three URIs equal the platform's default URIs (unix and windows default
documents both decode to their literal default values). -/
theorem spec_C2 :
    ∀ fs fs' : String → Option String,
      Settings.new decodeDockerConfig DEFAULTS fs none = .ok defaultSettings
      ∧ Settings.new decodeDockerConfig DEFAULTS_windows fs' none = .ok defaultSettingsWindows
      ∧ defaultSettings.provisioning
          = .Manual "HostName=something.some.com;DeviceId=some;SharedAccessKey=some"
      ∧ defaultSettings.runtime.name = "edgeAgent"
      ∧ defaultSettings.workload_uri = ⟨"http", "//0.0.0.0:8081"⟩
      ∧ defaultSettings.management_uri = ⟨"http", "//0.0.0.0:8080"⟩
      ∧ defaultSettings.docker_uri = ⟨"unix", "///var/run/docker.sock"⟩
      ∧ defaultSettingsWindows.docker_uri = ⟨"http", "//localhost:2375"⟩ := by
  intro fs fs'
  refine ⟨?_, ?_, rfl, rfl, rfl, rfl, rfl, rfl⟩
  · rw [new_none_fs_irrelevant DockerConfig decodeDockerConfig DEFAULTS fs (fun _ => none)]
    decide
  · rw [new_none_fs_irrelevant DockerConfig decodeDockerConfig DEFAULTS_windows fs'
      (fun _ => none)]
    decide

/-- Claim C2, witness: the default load applied at a concrete (empty) file
system. -/
theorem spec_C2_witness :
    Settings.new decodeDockerConfig DEFAULTS (fun _ => none) none = .ok defaultSettings :=
  (spec_C2 (fun _ => none) (fun _ => none)).1

/-- Claim C1, counterexample: with an override file that sets only the leaf
`provisioning.device_connection_string`, the load does NOT succeed — the
defaults are never merged underneath the override, so the claimed
deep-merge behavior fails at this concrete input. -/
theorem spec_C1_counterexample :
    (Settings.new decodeDockerConfig DEFAULTS fsOverrideOnly (some "config.json")).isOk
      = false := by
  decide

/-- Claim C1, amended: given an override file that sets only
`provisioning.device_connection_string`, `Settings::new(Some(path))` fails
with a `Configuration` error for the first missing required field
(`runtime`), and it does so whatever the embedded default document holds:
leaf keys absent from the override file are not filled in from the
defaults, because the file is merged over an empty configuration. -/
theorem spec_C1_amended :
    Settings.new decodeDockerConfig DEFAULTS fsOverrideOnly (some "config.json")
      = .err (.Configuration "missing field `runtime`")
    ∧ ∀ defaults : String,
        Settings.new decodeDockerConfig defaults fsOverrideOnly (some "config.json")
          = .err (.Configuration "missing field `runtime`") := by
  refine ⟨by decide, fun defaults => ?_⟩
  rw [new_some_defaults_irrelevant DockerConfig decodeDockerConfig defaults DEFAULTS
    fsOverrideOnly "config.json"]
  decide

/-- Claim C1 (amended), witness: the defaults-independent failure applied
with the windows default document in place of the unix one. -/
theorem spec_C1_amended_witness :
    Settings.new decodeDockerConfig DEFAULTS_windows fsOverrideOnly (some "config.json")
      = .err (.Configuration "missing field `runtime`") :=
  spec_C1_amended.2 DEFAULTS_windows

/-- Claim C3: with `Some(path)` the returned value depends only on the
contents of that file — the embedded default document (and every other file
of the file system) is never consulted — and a well-formed override file
that omits a required field of the schema (here `hostname`) makes the load
fail rather than having that field filled from the defaults. -/
theorem spec_C3 :
    (∀ (τ : Type) (decodeT : Json → Except String τ) (d d' : String)
        (fs fs' : String → Option String) (p : String),
        fs p = fs' p →
        Settings.new decodeT d fs (some p) = Settings.new decodeT d' fs' (some p))
    ∧ Settings.new decodeDockerConfig DEFAULTS fsMissingHostname (some "config.json")
        = .err (.Configuration "missing field `hostname`") := by
  constructor
  · intro τ decodeT d d' fs fs' p h
    simp only [Settings.new]
    rw [h]
  · decide

/-- Claim C3, witness: the dependence-only-on-file-contents part applied at
a concrete file system, and the concrete missing-`hostname` failure. -/
theorem spec_C3_witness :
    Settings.new decodeDockerConfig DEFAULTS fsMissingHostname (some "config.json")
      = Settings.new decodeDockerConfig DEFAULTS_windows fsMissingHostname (some "config.json") :=
  (spec_C3.1 DockerConfig decodeDockerConfig DEFAULTS DEFAULTS_windows
    fsMissingHostname fsMissingHostname "config.json" rfl)

/-- Claim C5: for every override path the file system cannot supply
(missing or unreadable file), `Settings::new(Some(path))` returns an `Err`
carrying a `Configuration` error naming the path — never an `Ok` and never
a panic. -/
theorem spec_C5 :
    ∀ (τ : Type) (decodeT : Json → Except String τ) (defaults : String)
      (fs : String → Option String) (p : String),
      fs p = none →
      Settings.new decodeT defaults fs (some p)
        = .err (.Configuration ("configuration file \"" ++ p ++ "\" not found")) := by
  intro τ decodeT defaults fs p h
  simp only [Settings.new]
  rw [h]

/-- Claim C5, witness: the nonexistent-path failure at a concrete input. -/
theorem spec_C5_witness :
    Settings.new decodeDockerConfig DEFAULTS (fun _ => none) (some "garbage")
      = .err (.Configuration "configuration file \"garbage\" not found") :=
  spec_C5 DockerConfig decodeDockerConfig DEFAULTS (fun _ => none) "garbage" rfl

/-- Claim C6: for every override file that exists but is syntactically
invalid in the document format, `Settings::new(Some(path))` returns an
`Err` carrying a `Configuration` error describing the parse failure; the
result is the error alone, never a partially populated settings value. -/
theorem spec_C6 :
    ∀ (τ : Type) (decodeT : Json → Except String τ) (defaults : String)
      (fs : String → Option String) (p contents : String),
      fs p = some contents → parseJson contents = none →
      Settings.new decodeT defaults fs (some p)
        = .err (.Configuration ("could not parse configuration file \"" ++ p ++ "\"")) := by
  intro τ decodeT defaults fs p contents h hparse
  simp only [Settings.new, h, hparse]

/-- Claim C6, witness: the malformed-file failure at a concrete file whose
text is an unterminated JSON object. -/
theorem spec_C6_witness :
    parseJson notJsonText = none
    ∧ Settings.new decodeDockerConfig DEFAULTS (fun _ => some notJsonText)
        (some "bad_sample_settings.json")
      = .err (.Configuration "could not parse configuration file \"bad_sample_settings.json\"") :=
  ⟨by decide,
   spec_C6 DockerConfig decodeDockerConfig DEFAULTS (fun _ => some notJsonText)
     "bad_sample_settings.json" notJsonText rfl (by decide)⟩

/-- Claim C4: the provisioning tagged union decodes by reading the `source`
discriminant: a document whose source is `dps` with both `global_endpoint`
and `scope_id` decodes to the `Dps` variant carrying those exact values,
and a document whose source is any string other than `manual` or `dps`
fails to decode, surfaced by the loader as a `Configuration` error. -/
theorem spec_C4 :
    ∀ (s : String) (rest : List (String × Json)),
      s ≠ "manual" → s ≠ "dps" →
      decodeProvisioning dpsDoc
          = .ok (.Dps "https://global.azure-devices-provisioning.net" "0ne0000A0A0")
        ∧ decodeProvisioning (.obj (("source", .str s) :: rest))
          = .error ("unknown variant `" ++ s ++ "`, expected `manual` or `dps`")
        ∧ Settings.new decodeDockerConfig DEFAULTS (fun _ => some badSourceText)
            (some "config.json")
          = .err (.Configuration "unknown variant `external`, expected `manual` or `dps`") := by
  intro s rest h1 h2
  refine ⟨by decide, ?_, by decide⟩
  have hlook : List.lookup "source" (("source", Json.str s) :: rest) = some (Json.str s) := by
    simp [List.lookup]
  simp [decodeProvisioning, getString, getField, hlook, asString, Bind.bind, Except.bind,
    h1, h2]

/-- Claim C4, witness: the recognized `dps` discriminant and the unknown
discriminant `external`, at concrete inputs. -/
theorem spec_C4_witness :
    decodeProvisioning (.obj [("source", .str "external")])
      = .error "unknown variant `external`, expected `manual` or `dps`" :=
  (spec_C4 "external" [] (by decide) (by decide)).2.1

/-- Claim C8: when the file at the override path is byte-identical to the
embedded default document, `Settings::new(Some(path))` and
`Settings::new(None)` are equivalent: both succeed and yield settings equal
in every field. -/
theorem spec_C8 :
    ∀ (fs : String → Option String) (p : String),
      fs p = some DEFAULTS →
      Settings.new decodeDockerConfig DEFAULTS fs (some p)
          = Settings.new decodeDockerConfig DEFAULTS fs none
        ∧ Settings.new decodeDockerConfig DEFAULTS fs (some p) = .ok defaultSettings := by
  intro fs p h
  have hp : parseJson DEFAULTS = some defaultsJson := by decide
  have hd : decodeSettings decodeDockerConfig defaultsJson = .ok defaultSettings := by decide
  have hs : Settings.new decodeDockerConfig DEFAULTS fs (some p) = .ok defaultSettings := by
    simp only [Settings.new, h, hp, hd]
  have hn : Settings.new decodeDockerConfig DEFAULTS fs none = .ok defaultSettings := by
    simp only [Settings.new, hp, hd]
  exact ⟨hs.trans hn.symm, hs⟩

/-- Claim C8, witness: the equivalence at a concrete file system whose file
is byte-identical to the embedded defaults. -/
theorem spec_C8_witness :
    Settings.new decodeDockerConfig DEFAULTS (fun _ => some DEFAULTS) (some "config.json")
      = Settings.new decodeDockerConfig DEFAULTS (fun _ => some DEFAULTS) none :=
  (spec_C8 (fun _ => some DEFAULTS) "config.json" rfl).1

/-- Claim C10: if the embedded default document fails to parse or decode,
`Settings::new(None)` aborts with a panic (not a returned `Configuration`
error); and since the actual embedded `DEFAULTS` text is a valid document
of the schema, that fatal branch is unreachable and the call returns `Ok`. -/
theorem spec_C10 :
    ∀ (d : String) (fs fs' : String → Option String),
      (decodeDefaults d = none →
        Settings.new decodeDockerConfig d fs none = .panic "Invalid default configuration")
      ∧ Settings.new decodeDockerConfig DEFAULTS fs' none = .ok defaultSettings := by
  intro d fs fs'
  constructor
  · intro h
    unfold decodeDefaults at h
    cases hp : parseJson d with
    | none => simp [Settings.new, hp]
    | some doc =>
        rw [hp] at h
        cases hd : decodeSettings decodeDockerConfig doc with
        | ok s =>
            exfalso
            simp [hd, Except.toOption] at h
        | error e => simp [Settings.new, hp, hd]
  · have hp : parseJson DEFAULTS = some defaultsJson := by decide
    have hd : decodeSettings decodeDockerConfig defaultsJson = .ok defaultSettings := by
      decide
    simp only [Settings.new, hp, hd]

/-- Claim C10, witness: a defaults text that fails to parse makes
`Settings::new(None)` panic rather than return an error. -/
theorem spec_C10_witness :
    Settings.new decodeDockerConfig "garbage" (fun _ => none) none
      = .panic "Invalid default configuration" :=
  (spec_C10 "garbage" (fun _ => none) (fun _ => none)).1 (by decide)

/-- `isSchemeChar` excludes the colon, so `splitScheme` splits a rendered
URI exactly at the appended colon. -/
theorem splitScheme_no_colon (pre post : List Char)
    (h : ∀ c ∈ pre, isSchemeChar c = true) :
    splitScheme (pre ++ ':' :: post) = some (pre, post) := by
  induction pre with
  | nil => simp [splitScheme]
  | cons c cs ih =>
      have hc : isSchemeChar c = true := h c (List.mem_cons_self c cs)
      have hcne : ¬(c = ':') := by
        intro he
        rw [he] at hc
        exact absurd hc (by decide)
      simp [splitScheme, hcne, ih (fun x hx => h x (List.mem_cons_of_mem c hx))]

/-- A URI accepted by `Url.parse` renders back to text that re-parses to
the same URI. -/
theorem Url.parse_render {s : String} {u : Url} (h : Url.parse s = some u) :
    Url.parse u.render = some u := by
  unfold Url.parse at h
  split at h
  next => exact absurd h (by simp)
  next => exact absurd h (by simp)
  next c pre post hsp =>
    split at h
    next hc =>
      obtain rfl : Url.mk (String.mk (c :: pre)) (String.mk post) = u :=
        Option.some.inj h
      have hcolon : (":" : String).data = [':'] := by decide
      have hdata : (Url.render ⟨String.mk (c :: pre), String.mk post⟩).toList
          = (c :: pre) ++ ':' :: post := by
        show (String.mk (c :: pre) ++ ":" ++ String.mk post).data = _
        rw [String.data_append, String.data_append, hcolon]
        simp
      have hall : ∀ x ∈ c :: pre, isSchemeChar x = true :=
        List.all_eq_true.mp ((Bool.and_eq_true _ _).mp hc).2
      unfold Url.parse
      rw [hdata, splitScheme_no_colon (c :: pre) post hall]
      show (if (c.isAlpha && (c :: pre).all isSchemeChar) = true then
              some (Url.mk (String.mk (c :: pre)) (String.mk post))
            else none)
          = some (Url.mk (String.mk (c :: pre)) (String.mk post))
      rw [if_pos hc]
    next hc => exact absurd h (by simp)

/-- A successful `decodeUrl` means the document field was a string that the
URI parser accepted. -/
theorem decodeUrl_ok {j : Json} {u : Url} (h : decodeUrl j = .ok u) :
    ∃ su, j = .str su ∧ Url.parse su = some u := by
  cases j with
  | str su =>
      refine ⟨su, rfl, ?_⟩
      cases hp : Url.parse su with
      | some u' =>
          have hu : u' = u := by simpa [decodeUrl, hp] using h
          exact congrArg some hu
      | none => exact absurd h (by simp [decodeUrl, hp])
  | null => exact absurd h (by simp [decodeUrl])
  | bool b => exact absurd h (by simp [decodeUrl])
  | num n => exact absurd h (by simp [decodeUrl])
  | arr xs => exact absurd h (by simp [decodeUrl])
  | obj fs => exact absurd h (by simp [decodeUrl])

/-- Inversion of a successful `decodeSettings`: every field of the result
comes from the corresponding document field; in particular each URI field
was a string accepted by the URI parser. -/
theorem decodeSettings_ok_urls {τ : Type} {decodeT : Json → Except String τ}
    {j : Json} {s : Settings τ} (h : decodeSettings decodeT j = .ok s) :
    (∃ su, getField j "workload_uri" = .ok (.str su) ∧ Url.parse su = some s.workload_uri)
    ∧ (∃ su, getField j "management_uri" = .ok (.str su)
        ∧ Url.parse su = some s.management_uri)
    ∧ (∃ su, getField j "docker_uri" = .ok (.str su) ∧ Url.parse su = some s.docker_uri) := by
  unfold decodeSettings at h
  obtain ⟨prov, hprov, h⟩ := except_ok_step h
  obtain ⟨rt, hrt, h⟩ := except_ok_step h
  obtain ⟨hn, hhn, h⟩ := except_ok_step h
  obtain ⟨w, hw, h⟩ := except_ok_step h
  obtain ⟨m, hm, h⟩ := except_ok_step h
  obtain ⟨d, hd, h⟩ := except_ok_step h
  have hs : s = ⟨prov, rt, hn, w, m, d⟩ := by
    have : Except.ok (ε := String) (Settings.mk prov rt hn w m d) = .ok s := h
    exact (Except.ok.inj this).symm
  subst hs
  obtain ⟨jw, hjw, hdw⟩ := except_ok_step hw
  obtain ⟨jm, hjm, hdm⟩ := except_ok_step hm
  obtain ⟨jd, hjd, hdd⟩ := except_ok_step hd
  obtain ⟨sw, rfl, hpw⟩ := decodeUrl_ok hdw
  obtain ⟨sm, rfl, hpm⟩ := decodeUrl_ok hdm
  obtain ⟨sd, rfl, hpd⟩ := decodeUrl_ok hdd
  exact ⟨⟨sw, hjw, hpw⟩, ⟨sm, hjm, hpm⟩, ⟨sd, hjd, hpd⟩⟩

/-- Claim C7: every `Settings<T>` a successful decode constructs holds
three valid parsed URIs (each renders back to text the URI parser accepts,
to the same value), and conversely the document's URI fields must all have
been parseable strings — a document whose `workload_uri`, `management_uri`
or `docker_uri` string does not parse as an absolute URI cannot decode. -/
theorem spec_C7 {τ : Type} (decodeT : Json → Except String τ) (j : Json) (s : Settings τ)
    (h : decodeSettings decodeT j = .ok s) :
    (Url.parse s.workload_uri.render = some s.workload_uri
      ∧ Url.parse s.management_uri.render = some s.management_uri
      ∧ Url.parse s.docker_uri.render = some s.docker_uri)
    ∧ ∀ su : String,
        (getField j "workload_uri" = .ok (.str su)
          ∨ getField j "management_uri" = .ok (.str su)
          ∨ getField j "docker_uri" = .ok (.str su)) →
        Url.parse su ≠ none := by
  obtain ⟨⟨sw, hjw, hpw⟩, ⟨sm, hjm, hpm⟩, ⟨sd, hjd, hpd⟩⟩ := decodeSettings_ok_urls h
  refine ⟨⟨Url.parse_render hpw, Url.parse_render hpm, Url.parse_render hpd⟩, ?_⟩
  intro su hsu
  rcases hsu with hf | hf | hf
  · have : sw = su := Json.str.inj (Except.ok.inj (hjw.symm.trans hf))
    rw [← this, hpw]
    exact Option.noConfusion
  · have : sm = su := Json.str.inj (Except.ok.inj (hjm.symm.trans hf))
    rw [← this, hpm]
    exact Option.noConfusion
  · have : sd = su := Json.str.inj (Except.ok.inj (hjd.symm.trans hf))
    rw [← this, hpd]
    exact Option.noConfusion

/-- Claim C7, witness: the three URIs of the decoded default document are
valid, applied at the concrete default document and settings value. -/
theorem spec_C7_witness :
    Url.parse defaultSettings.workload_uri.render = some defaultSettings.workload_uri :=
  (spec_C7 decodeDockerConfig defaultsJson defaultSettings (by decide)).1.1

/-- Re-decoding an encoded provisioning value restores it exactly. -/
theorem decodeProvisioning_encode (p : Provisioning) :
    decodeProvisioning (encodeProvisioning p) = .ok p := by
  cases p with
  | Manual cs =>
      simp [encodeProvisioning, decodeProvisioning, getString, getField, asString,
        List.lookup, Bind.bind, Except.bind, pure, Except.pure]
  | Dps ge si =>
      simp [encodeProvisioning, decodeProvisioning, getString, getField, asString,
        List.lookup, Bind.bind, Except.bind, pure, Except.pure]

/-- Re-decoding an encoded env map restores it exactly. -/
theorem decodeEnvFields_encode (env : List (String × String)) :
    decodeEnvFields (env.map fun kv => (kv.1, .str kv.2)) = .ok env := by
  induction env with
  | nil => rfl
  | cons kv rest ih =>
      obtain ⟨k, v⟩ := kv
      simp [decodeEnvFields, asString, ih, Bind.bind, Except.bind, pure, Except.pure]

/-- Re-decoding an encoded docker config restores it exactly. -/
theorem decodeDockerConfig_encode (c : DockerConfig) :
    decodeDockerConfig (encodeDockerConfig c) = .ok c := by
  simp [encodeDockerConfig, decodeDockerConfig, getString, getField, asString, asObj,
    List.lookup, Bind.bind, Except.bind, pure, Except.pure]

/-- Re-decoding an encoded workload spec restores it exactly. -/
theorem decodeModuleSpec_encode (m : ModuleSpec DockerConfig) :
    decodeModuleSpec decodeDockerConfig (encodeModuleSpec encodeDockerConfig m)
      = .ok m := by
  simp [encodeModuleSpec, decodeModuleSpec, getString, getField, asString, encodeEnv,
    decodeEnv, asObj, decodeEnvFields_encode, decodeDockerConfig_encode,
    List.lookup, Bind.bind, Except.bind, pure, Except.pure]

/-- Claim C9: for every `Settings<DockerConfig>` value a successful decode
produces, encoding it back to the document format and re-decoding yields a
value equal to the original in all fields — the schema is lossless for
values it accepted. -/
theorem spec_C9 (j : Json) (s : Settings DockerConfig)
    (h : decodeSettings decodeDockerConfig j = .ok s) :
    decodeSettings decodeDockerConfig (encodeSettings encodeDockerConfig s) = .ok s := by
  obtain ⟨⟨sw, hjw, hpw⟩, ⟨sm, hjm, hpm⟩, ⟨sd, hjd, hpd⟩⟩ := decodeSettings_ok_urls h
  have hw := Url.parse_render hpw
  have hm := Url.parse_render hpm
  have hd := Url.parse_render hpd
  simp [encodeSettings, decodeSettings, getString, getField, asString, List.lookup,
    decodeProvisioning_encode, decodeModuleSpec_encode, decodeUrl, encodeUrl,
    hw, hm, hd, Bind.bind, Except.bind, pure, Except.pure]

/-- Claim C9, witness: the round trip applied at the concrete default
document and its decoded settings value. -/
theorem spec_C9_witness :
    decodeSettings decodeDockerConfig (encodeSettings encodeDockerConfig defaultSettings)
      = .ok defaultSettings :=
  spec_C9 defaultsJson defaultSettings (by decide)

end IotedgedSettings
